import Mathlib

/-!
# JTAG scan-request handler of the LUNA D11 board (Apollo firmware)

Shallow embedding of `handle_jtag_request_scan`
(`firmware/src/boards/luna_d11/jtag.c`).  The handler is straight-line C that
reads two `uint16_t` fields of a USB control request, derives two `size_t`
locals and calls hardware collaborators.  The embedding keeps the two locals
as natural numbers (the one decrement is taken modulo `2 ^ 32`, the width of
`size_t` on the SAMD11), and records every collaborator call, in order, in a
call trace.
-/

namespace Apollo

/-! ## Data model -/

/-- The fields of `tusb_control_request_t` the handler reads; both are
`uint16_t` in TinyUSB, so a request delivered by the transport has both
below `2 ^ 16`. -/
structure tusb_control_request_t where
  wValue : Nat
  wIndex : Nat
deriving DecidableEq, Repr

/-- Flag of `wIndex`: the command should advance the TAP FSM. -/
def FLAG_ADVANCE_STATE : Nat := 0b01

/-- Flag of `wIndex`: the command should be sent using the slow method. -/
def FLAG_FORCE_BITBANG : Nat := 0b10

/-- Value of `sizeof(jtag_out_buffer)` for `uint8_t jtag_out_buffer[256]`. -/
def sizeof_jtag_out_buffer : Nat := 256

/-- Number of values of a `size_t` on the 32-bit target, `2 ^ 32`. -/
def SIZE_T_MOD : Nat := 4294967296

/-- One call of the handler to a collaborator.  Buffer pointers are recorded
as byte offsets into `jtag_out_buffer` / `jtag_in_buffer` (`none` is `NULL`); the
last argument of `jtag_tap_shift` is the raw integer the handler passes
(`request->wIndex`). -/
inductive Call where
  | spi_configure_pinmux
  | spi_send (out_offset in_offset length : Nat)
  | spi_release_pinmux
  | jtag_tap_shift (out_offset in_offset bits advance : Nat)
  | tud_control_xfer (rhport : Nat) (buffer : Option Nat) (len : Nat)
deriving DecidableEq, Repr

/-- The two `size_t` locals of the handler. -/
structure Split where
  bytes_to_send_bulk : Nat
  bits_to_send_slow : Nat
deriving DecidableEq, Repr

/-! ## The handler, statement by statement -/

/-- Lines 67-68: `wValue / 8` bytes for the fast method, `wValue % 8` bits for
the slow one. -/
def initial_split (request : tusb_control_request_t) : Split :=
  { bytes_to_send_bulk := request.wValue / 8
    bits_to_send_slow := request.wValue % 8 }

/-- Line 71: `!bits_to_send_slow && !bytes_to_send_bulk`. -/
def zero_length (s : Split) : Bool :=
  s.bits_to_send_slow == 0 && s.bytes_to_send_bulk == 0

/-- Line 76: `bytes_to_send_bulk > sizeof(jtag_out_buffer)`. -/
def exceeds_buffer (s : Split) : Bool :=
  decide (s.bytes_to_send_bulk > sizeof_jtag_out_buffer)

/-- Line 82: `request->wIndex & FLAG_FORCE_BITBANG`. -/
def force_bitbang (request : tusb_control_request_t) : Bool :=
  request.wIndex &&& FLAG_FORCE_BITBANG != 0

/-- Line 90, second conjunct: `request->wIndex & FLAG_ADVANCE_STATE`. -/
def advance_state (request : tusb_control_request_t) : Bool :=
  request.wIndex &&& FLAG_ADVANCE_STATE != 0

/-- Lines 82-85: when slow sending is forced, all bits go the slow way. -/
def force_override (request : tusb_control_request_t) (s : Split) : Split :=
  if force_bitbang request then
    { bytes_to_send_bulk := 0, bits_to_send_slow := request.wValue }
  else s

/-- Line 90: the condition of the state-advance correction. -/
def correction_fires (request : tusb_control_request_t) (s : Split) : Bool :=
  s.bits_to_send_slow == 0 && advance_state request

/-- Lines 90-93: `bytes_to_send_bulk--` on a `size_t`, then eight slow bits. -/
def advance_correction (request : tusb_control_request_t) (s : Split) : Split :=
  if correction_fires request s then
    { bytes_to_send_bulk := (s.bytes_to_send_bulk + SIZE_T_MOD - 1) % SIZE_T_MOD
      bits_to_send_slow := 8 }
  else s

/-- Lines 96-99: the fast stage, run only when there are bytes for it. -/
def bulk_stage (s : Split) : List Call :=
  if s.bytes_to_send_bulk != 0 then
    [Call.spi_configure_pinmux, Call.spi_send 0 0 s.bytes_to_send_bulk]
  else []

/-- Lines 103-106: the slow stage, run only when there are bits for it; it
starts at byte `bytes_to_send_bulk` of both buffers and is handed `wIndex`. -/
def bit_stage (request : tusb_control_request_t) (s : Split) : List Call :=
  if s.bits_to_send_slow != 0 then
    [Call.jtag_tap_shift s.bytes_to_send_bulk s.bytes_to_send_bulk
      s.bits_to_send_slow request.wIndex]
  else []

/-- Lines 95-107: the calls made once the request has been accepted. -/
def dispatch (rhport : Nat) (request : tusb_control_request_t) (s : Split) : List Call :=
  bulk_stage s ++ [Call.spi_release_pinmux] ++ bit_stage request s
    ++ [Call.tud_control_xfer rhport none 0]

/-- The locals as they stand at line 95. -/
def final_split (request : tusb_control_request_t) : Split :=
  advance_correction request (force_override request (initial_split request))

/-- The handler: its return value and the trace of its collaborator calls.
`xfer_result` is what `tud_control_xfer` returns, which the USB stack decides. -/
def handle_jtag_request_scan (xfer_result : Bool) (rhport : Nat)
    (request : tusb_control_request_t) : Bool × List Call :=
  let s := initial_split request
  if zero_length s then (false, [])
  else if exceeds_buffer s then (false, [])
  else (xfer_result, dispatch rhport request (final_split request))

/-! ## Observations on a call trace -/

/-- Whether a call is a Bulk-stage transfer. -/
def Call.is_spi_send : Call → Bool
  | Call.spi_send _ _ _ => true
  | _ => false

/-- Whether a call is a Bit-Transfer-stage shift. -/
def Call.is_jtag_tap_shift : Call → Bool
  | Call.jtag_tap_shift _ _ _ _ => true
  | _ => false

/-- Whether a call is the transport acknowledgement. -/
def Call.is_tud_control_xfer : Call → Bool
  | Call.tud_control_xfer _ _ _ => true
  | _ => false

/-- The `spi_send` calls of a trace, in order. -/
def spi_sends (t : List Call) : List Call := t.filter Call.is_spi_send

/-- The `jtag_tap_shift` calls of a trace, in order. -/
def tap_shifts (t : List Call) : List Call := t.filter Call.is_jtag_tap_shift

/-- The `tud_control_xfer` calls of a trace, in order. -/
def acknowledgements (t : List Call) : List Call := t.filter Call.is_tud_control_xfer

/-- Modelled from the spec: the prototype of `jtag_tap_shift` (`jtag.h`) is
not among the sources; its last parameter is a C boolean, so the integer
argument is converted by "nonzero is true". -/
def c_bool (n : Nat) : Bool := n != 0

/-- The byte count a call hands to the Bulk stage; 0 for any other call. -/
def Call.bulk_bytes : Call → Nat
  | Call.spi_send _ _ n => n
  | _ => 0

/-- The bit count a call hands to the Bit Transfer stage; 0 for any other call. -/
def Call.slow_bits : Call → Nat
  | Call.jtag_tap_shift _ _ b _ => b
  | _ => 0

/-- Bytes passed to `spi_send` over a whole trace (0 if it is not invoked). -/
def bytes_sent_bulk (t : List Call) : Nat := (t.map Call.bulk_bytes).sum

/-- Bits passed to `jtag_tap_shift` over a whole trace (0 if it is not invoked). -/
def bits_sent_slow (t : List Call) : Nat := (t.map Call.slow_bits).sum

/-- Whether a call switches the pin mode. -/
def Call.is_pin_mode : Call → Bool
  | Call.spi_configure_pinmux => true
  | Call.spi_release_pinmux => true
  | _ => false

/-- The most recent pin-mode call of a trace, if there is one. -/
def last_pin_mode (t : List Call) : Option Call := (t.filter Call.is_pin_mode).getLast?

/-- Modelled from the spec: the bodies of `spi_send` and `jtag_tap_shift` are not
among the sources.  A bulk transfer of `n` bytes from offset `o` touches the
bytes `[o, o + n)` of both buffers, and a shift of `b` bits from offset `o`
touches the bytes `[o, o + ceil(b / 8))`; this is one past the last byte a call
touches, and 0 for a call that touches no buffer. -/
def Call.buffer_end : Call → Nat
  | Call.spi_send o _ n => o + n
  | Call.jtag_tap_shift o _ b _ => o + (b + 7) / 8
  | _ => 0

/-! ## The scenarios of the specification, evaluated -/

example : handle_jtag_request_scan true 0 ⟨16, 1⟩ =
    (true, [Call.spi_configure_pinmux, Call.spi_send 0 0 1, Call.spi_release_pinmux,
      Call.jtag_tap_shift 1 1 8 1, Call.tud_control_xfer 0 none 0]) := by decide

example : handle_jtag_request_scan true 0 ⟨20, 0⟩ =
    (true, [Call.spi_configure_pinmux, Call.spi_send 0 0 2, Call.spi_release_pinmux,
      Call.jtag_tap_shift 2 2 4 0, Call.tud_control_xfer 0 none 0]) := by decide

example : handle_jtag_request_scan true 0 ⟨5, 3⟩ =
    (true, [Call.spi_release_pinmux,
      Call.jtag_tap_shift 0 0 5 3, Call.tud_control_xfer 0 none 0]) := by decide

example : handle_jtag_request_scan true 0 ⟨8, 1⟩ =
    (true, [Call.spi_release_pinmux,
      Call.jtag_tap_shift 0 0 8 1, Call.tud_control_xfer 0 none 0]) := by decide

/-! ## Shared lemmas -/

theorem accepted_eq (xfer_result : Bool) (rhport : Nat) (request : tusb_control_request_t)
    (hpos : 1 ≤ request.wValue) (hcap : request.wValue / 8 ≤ 256) :
    handle_jtag_request_scan xfer_result rhport request
      = (xfer_result, dispatch rhport request (final_split request)) := by
  have hz : zero_length (initial_split request) = false := by
    simp [zero_length, initial_split]
    omega
  have he : exceeds_buffer (initial_split request) = false := by
    simp [exceeds_buffer, initial_split, sizeof_jtag_out_buffer]
    omega
  simp [handle_jtag_request_scan, hz, he]

theorem size_t_decrement (n : Nat) (h1 : 1 ≤ n) (h2 : n ≤ 256) :
    (n + SIZE_T_MOD - 1) % SIZE_T_MOD = n - 1 := by
  unfold SIZE_T_MOD
  omega

theorem final_split_forced (request : tusb_control_request_t)
    (hforce : force_bitbang request = true) (hpos : 1 ≤ request.wValue) :
    final_split request = { bytes_to_send_bulk := 0, bits_to_send_slow := request.wValue } := by
  have hne : ¬ request.wValue = 0 := by omega
  simp [final_split, force_override, advance_correction, correction_fires, hforce, hne]

theorem final_split_unaligned (request : tusb_control_request_t)
    (hforce : force_bitbang request = false) (hrem : request.wValue % 8 ≠ 0) :
    final_split request
      = { bytes_to_send_bulk := request.wValue / 8
          bits_to_send_slow := request.wValue % 8 } := by
  simp [final_split, force_override, advance_correction, correction_fires, initial_split,
    hforce, hrem]

theorem final_split_aligned_advance (request : tusb_control_request_t)
    (hforce : force_bitbang request = false) (hrem : request.wValue % 8 = 0)
    (hadv : advance_state request = true)
    (hpos : 1 ≤ request.wValue) (hcap : request.wValue / 8 ≤ 256) :
    final_split request
      = { bytes_to_send_bulk := request.wValue / 8 - 1, bits_to_send_slow := 8 } := by
  have hdec := size_t_decrement (request.wValue / 8) (by omega) hcap
  simp [final_split, force_override, advance_correction, correction_fires, initial_split,
    hforce, hrem, hadv, hdec]

theorem final_split_aligned_hold (request : tusb_control_request_t)
    (hforce : force_bitbang request = false) (hrem : request.wValue % 8 = 0)
    (hadv : advance_state request = false) :
    final_split request
      = { bytes_to_send_bulk := request.wValue / 8, bits_to_send_slow := 0 } := by
  simp [final_split, force_override, advance_correction, correction_fires, initial_split,
    hforce, hrem, hadv]

theorem tap_shifts_dispatch (rhport : Nat) (request : tusb_control_request_t) (s : Split) :
    tap_shifts (dispatch rhport request s) = bit_stage request s := by
  unfold tap_shifts dispatch bulk_stage bit_stage
  by_cases hb : s.bytes_to_send_bulk = 0 <;> by_cases hs : s.bits_to_send_slow = 0 <;>
    simp [hb, hs, List.filter, Call.is_jtag_tap_shift]

theorem spi_sends_dispatch (rhport : Nat) (request : tusb_control_request_t) (s : Split) :
    spi_sends (dispatch rhport request s)
      = if s.bytes_to_send_bulk != 0 then [Call.spi_send 0 0 s.bytes_to_send_bulk] else [] := by
  unfold spi_sends dispatch bulk_stage bit_stage
  by_cases hb : s.bytes_to_send_bulk = 0 <;> by_cases hs : s.bits_to_send_slow = 0 <;>
    simp [hb, hs, List.filter, Call.is_spi_send]

theorem advance_state_wIndex_ne_zero (request : tusb_control_request_t)
    (hadv : advance_state request = true) : request.wIndex ≠ 0 := by
  intro h
  simp [advance_state, h] at hadv

theorem rejected_eq (xfer_result : Bool) (rhport : Nat) (request : tusb_control_request_t)
    (hrej : request.wValue = 0 ∨ 256 < request.wValue / 8) :
    handle_jtag_request_scan xfer_result rhport request = (false, []) := by
  rcases hrej with h0 | hbig
  · simp [handle_jtag_request_scan, zero_length, initial_split, h0]
  · have he : exceeds_buffer (initial_split request) = true := by
      simp [exceeds_buffer, initial_split, sizeof_jtag_out_buffer]
      exact hbig
    simp [handle_jtag_request_scan, he]

/-! ## The splitting contract -/

/-- C1: for an accepted request (`1 ≤ wValue`, `wValue / 8 ≤ 256`) with
`FLAG_ADVANCE_STATE` set, with or without `FLAG_FORCE_BITBANG`, the handler calls
`jtag_tap_shift` exactly once, with at least one bit and an argument that reads
as true, starting at the byte where the bulk part ends; the bulk bytes and the
slow bits add up to the whole scan, so the shifted bits are its final bits. -/
theorem scan_advance_shifts_final_bits (xfer_result : Bool) (rhport : Nat)
    (request : tusb_control_request_t)
    (hpos : 1 ≤ request.wValue) (hcap : request.wValue / 8 ≤ 256)
    (hadv : advance_state request = true) :
    tap_shifts (handle_jtag_request_scan xfer_result rhport request).2
        = [Call.jtag_tap_shift (final_split request).bytes_to_send_bulk
            (final_split request).bytes_to_send_bulk
            (final_split request).bits_to_send_slow request.wIndex]
      ∧ 1 ≤ (final_split request).bits_to_send_slow
      ∧ c_bool request.wIndex = true
      ∧ 8 * (final_split request).bytes_to_send_bulk + (final_split request).bits_to_send_slow
          = request.wValue
      ∧ spi_sends (handle_jtag_request_scan xfer_result rhport request).2
          = (if (final_split request).bytes_to_send_bulk != 0
              then [Call.spi_send 0 0 (final_split request).bytes_to_send_bulk] else []) := by
  have hw : c_bool request.wIndex = true := by
    simpa [c_bool] using advance_state_wIndex_ne_zero request hadv
  rw [accepted_eq xfer_result rhport request hpos hcap]
  simp only [tap_shifts_dispatch, spi_sends_dispatch]
  cases hforce : force_bitbang request
  · by_cases hrem : request.wValue % 8 = 0
    · rw [final_split_aligned_advance request hforce hrem hadv hpos hcap]
      refine ⟨by simp [bit_stage], by simp, hw, ?_, trivial⟩
      show 8 * (request.wValue / 8 - 1) + 8 = request.wValue
      omega
    · rw [final_split_unaligned request hforce hrem]
      refine ⟨by simp [bit_stage, hrem], ?_, hw, ?_, trivial⟩
      · show 1 ≤ request.wValue % 8
        omega
      · show 8 * (request.wValue / 8) + request.wValue % 8 = request.wValue
        omega
  · rw [final_split_forced request hforce hpos]
    have hne : ¬ request.wValue = 0 := by omega
    refine ⟨by simp [bit_stage, hne], hpos, hw, ?_, trivial⟩
    show 8 * 0 + request.wValue = request.wValue
    omega

/-- C1 at `wValue = 16`, `wIndex = 1`: one byte in bulk, then the last 8 bits
shifted with the advance argument set. -/
theorem scan_advance_shifts_final_bits_witness :
    tap_shifts (handle_jtag_request_scan true 0 ⟨16, 1⟩).2 = [Call.jtag_tap_shift 1 1 8 1]
      ∧ 1 ≤ 8 ∧ c_bool 1 = true ∧ 8 * 1 + 8 = 16
      ∧ spi_sends (handle_jtag_request_scan true 0 ⟨16, 1⟩).2 = [Call.spi_send 0 0 1] :=
  scan_advance_shifts_final_bits true 0 ⟨16, 1⟩ (by decide) (by decide) (by decide)

/-- C2 as stated fails at `wValue = 8`, `wIndex = 1`: the request is a positive
multiple of 8 within capacity, not forced, with advance set, yet `spi_send` is
not called at all (the decremented byte count is 0 and line 96 skips the stage). -/
theorem scan_aligned_advance_bulk_counterexample :
    1 ≤ 8 ∧ 8 % 8 = 0 ∧ 8 / 8 ≤ 256
      ∧ force_bitbang ⟨8, 1⟩ = false ∧ advance_state ⟨8, 1⟩ = true
      ∧ spi_sends (handle_jtag_request_scan true 0 ⟨8, 1⟩).2 = []
      ∧ ¬ spi_sends (handle_jtag_request_scan true 0 ⟨8, 1⟩).2
          = [Call.spi_send 0 0 (8 / 8 - 1)] := by
  decide

/-- C2 (amended): for a positive multiple of 8 within capacity, not forced, with
advance set, `jtag_tap_shift` is called once with exactly 8 bits, a true advance
argument and byte offset `wValue / 8 - 1`; `spi_send` is called if and only if
`16 ≤ wValue`, and then once with `wValue / 8 - 1` bytes. -/
theorem scan_aligned_advance_steals_byte (xfer_result : Bool) (rhport : Nat)
    (request : tusb_control_request_t)
    (hpos : 1 ≤ request.wValue) (hrem : request.wValue % 8 = 0)
    (hcap : request.wValue / 8 ≤ 256)
    (hforce : force_bitbang request = false) (hadv : advance_state request = true) :
    tap_shifts (handle_jtag_request_scan xfer_result rhport request).2
        = [Call.jtag_tap_shift (request.wValue / 8 - 1) (request.wValue / 8 - 1) 8
            request.wIndex]
      ∧ c_bool request.wIndex = true
      ∧ (spi_sends (handle_jtag_request_scan xfer_result rhport request).2 ≠ []
          ↔ 16 ≤ request.wValue)
      ∧ (16 ≤ request.wValue →
          spi_sends (handle_jtag_request_scan xfer_result rhport request).2
            = [Call.spi_send 0 0 (request.wValue / 8 - 1)]) := by
  have hw : c_bool request.wIndex = true := by
    simpa [c_bool] using advance_state_wIndex_ne_zero request hadv
  rw [accepted_eq xfer_result rhport request hpos hcap]
  simp only [tap_shifts_dispatch, spi_sends_dispatch]
  rw [final_split_aligned_advance request hforce hrem hadv hpos hcap]
  refine ⟨by simp [bit_stage], hw, ?_, ?_⟩
  · by_cases h16 : 16 ≤ request.wValue
    · have hne : ¬ request.wValue / 8 - 1 = 0 := by omega
      simp [hne, h16]
    · have he : request.wValue / 8 - 1 = 0 := by omega
      simp [he, h16]
  · intro h16
    have hne : ¬ request.wValue / 8 - 1 = 0 := by omega
    simp [hne]

/-- C2 (amended) at `wValue = 16`, `wIndex = 1`: a 1-byte bulk transfer, then an
8-bit shift with advance at offset 1. -/
theorem scan_aligned_advance_steals_byte_witness :
    tap_shifts (handle_jtag_request_scan true 0 ⟨16, 1⟩).2 = [Call.jtag_tap_shift 1 1 8 1]
      ∧ c_bool 1 = true
      ∧ spi_sends (handle_jtag_request_scan true 0 ⟨16, 1⟩).2 = [Call.spi_send 0 0 1] :=
  have h := scan_aligned_advance_steals_byte true 0 ⟨16, 1⟩
    (by decide) (by decide) (by decide) (by decide) (by decide)
  ⟨h.1, h.2.1, h.2.2.2 (by decide)⟩

/-- C3: for `wValue > 0` not a multiple of 8, within capacity and not forced,
whatever the advance flag, `jtag_tap_shift` is called once with `wValue % 8`
bits at byte offset `wValue / 8`; `spi_send` is called if and only if
`wValue / 8 > 0`, and then once with exactly `wValue / 8` bytes. -/
theorem scan_unaligned_split (xfer_result : Bool) (rhport : Nat)
    (request : tusb_control_request_t)
    (hpos : 0 < request.wValue) (hrem : request.wValue % 8 ≠ 0)
    (hcap : request.wValue / 8 ≤ 256) (hforce : force_bitbang request = false) :
    tap_shifts (handle_jtag_request_scan xfer_result rhport request).2
        = [Call.jtag_tap_shift (request.wValue / 8) (request.wValue / 8)
            (request.wValue % 8) request.wIndex]
      ∧ (spi_sends (handle_jtag_request_scan xfer_result rhport request).2 ≠ []
          ↔ 0 < request.wValue / 8)
      ∧ (0 < request.wValue / 8 →
          spi_sends (handle_jtag_request_scan xfer_result rhport request).2
            = [Call.spi_send 0 0 (request.wValue / 8)]) := by
  rw [accepted_eq xfer_result rhport request hpos hcap]
  simp only [tap_shifts_dispatch, spi_sends_dispatch]
  rw [final_split_unaligned request hforce hrem]
  refine ⟨by simp [bit_stage, hrem], ?_, ?_⟩
  · by_cases hb : request.wValue / 8 = 0
    · simp [hb]
    · have hlt : 0 < request.wValue / 8 := by omega
      simp [hb, hlt]
  · intro hlt
    have hb : ¬ request.wValue / 8 = 0 := by omega
    simp [hb]

/-- C3 at `wValue = 20`, `wIndex = 0`: a 2-byte bulk transfer and a 4-bit shift
at offset 2, handed a zero advance argument. -/
theorem scan_unaligned_split_witness :
    tap_shifts (handle_jtag_request_scan true 0 ⟨20, 0⟩).2 = [Call.jtag_tap_shift 2 2 4 0]
      ∧ spi_sends (handle_jtag_request_scan true 0 ⟨20, 0⟩).2 = [Call.spi_send 0 0 2] :=
  have h := scan_unaligned_split true 0 ⟨20, 0⟩ (by decide) (by decide) (by decide) (by decide)
  ⟨h.1, h.2.2 (by decide)⟩

/-- C4: for a positive multiple of 8 within capacity, not forced and without
advance, `jtag_tap_shift` is never called and `spi_send` is called once with
exactly `wValue / 8` bytes, which is the whole transfer. -/
theorem scan_aligned_hold_all_bulk (xfer_result : Bool) (rhport : Nat)
    (request : tusb_control_request_t)
    (hpos : 0 < request.wValue) (hrem : request.wValue % 8 = 0)
    (hcap : request.wValue / 8 ≤ 256)
    (hforce : force_bitbang request = false) (hadv : advance_state request = false) :
    tap_shifts (handle_jtag_request_scan xfer_result rhport request).2 = []
      ∧ spi_sends (handle_jtag_request_scan xfer_result rhport request).2
          = [Call.spi_send 0 0 (request.wValue / 8)]
      ∧ 8 * (request.wValue / 8) = request.wValue := by
  rw [accepted_eq xfer_result rhport request hpos hcap]
  simp only [tap_shifts_dispatch, spi_sends_dispatch]
  rw [final_split_aligned_hold request hforce hrem hadv]
  have hb : ¬ request.wValue / 8 = 0 := by omega
  refine ⟨by simp [bit_stage], by simp [hb], by omega⟩

/-- C4 at `wValue = 24`, `wIndex = 0`: no shift, one 3-byte bulk transfer. -/
theorem scan_aligned_hold_all_bulk_witness :
    tap_shifts (handle_jtag_request_scan true 0 ⟨24, 0⟩).2 = []
      ∧ spi_sends (handle_jtag_request_scan true 0 ⟨24, 0⟩).2 = [Call.spi_send 0 0 3]
      ∧ 8 * (24 / 8) = 24 :=
  scan_aligned_hold_all_bulk true 0 ⟨24, 0⟩
    (by decide) (by decide) (by decide) (by decide) (by decide)

/-- C5: with `FLAG_FORCE_BITBANG` set, whatever the bit count and the advance
flag, `spi_send` is never called; and when the request is accepted,
`jtag_tap_shift` is called once, at offset 0, with all `wValue` bits, the
state-advance correction not firing after the override. -/
theorem scan_forced_all_slow (xfer_result : Bool) (rhport : Nat)
    (request : tusb_control_request_t) (hforce : force_bitbang request = true) :
    spi_sends (handle_jtag_request_scan xfer_result rhport request).2 = []
      ∧ (1 ≤ request.wValue → request.wValue / 8 ≤ 256 →
          tap_shifts (handle_jtag_request_scan xfer_result rhport request).2
              = [Call.jtag_tap_shift 0 0 request.wValue request.wIndex]
            ∧ correction_fires request (force_override request (initial_split request))
                = false
            ∧ final_split request
                = { bytes_to_send_bulk := 0, bits_to_send_slow := request.wValue }) := by
  constructor
  · by_cases hacc : 1 ≤ request.wValue ∧ request.wValue / 8 ≤ 256
    · rw [accepted_eq xfer_result rhport request hacc.1 hacc.2, spi_sends_dispatch,
        final_split_forced request hforce hacc.1]
      simp
    · rw [rejected_eq xfer_result rhport request (by omega)]
      rfl
  · intro hpos hcap
    have hne : ¬ request.wValue = 0 := by omega
    rw [accepted_eq xfer_result rhport request hpos hcap, tap_shifts_dispatch,
      final_split_forced request hforce hpos]
    refine ⟨by simp [bit_stage, hne], ?_, rfl⟩
    simp [correction_fires, force_override, hforce, hne]

/-- C5 at `wValue = 5`, `wIndex = 3` (advance and force): no bulk transfer and
a 5-bit shift at offset 0. -/
theorem scan_forced_all_slow_witness :
    spi_sends (handle_jtag_request_scan true 0 ⟨5, 3⟩).2 = []
      ∧ tap_shifts (handle_jtag_request_scan true 0 ⟨5, 3⟩).2 = [Call.jtag_tap_shift 0 0 5 3]
      ∧ final_split ⟨5, 3⟩ = { bytes_to_send_bulk := 0, bits_to_send_slow := 5 } :=
  have h := scan_forced_all_slow true 0 ⟨5, 3⟩ (by decide)
  have h2 := h.2 (by decide) (by decide)
  ⟨h.1, h2.1, h2.2.2⟩

/-! ## The advance argument -/

/-- C6 (the code at the failing input): a request with only
`FLAG_FORCE_BITBANG` set (`wValue = 5`, `wIndex = 2`) has `advance_state` false,
yet `jtag_tap_shift` is handed the raw `wIndex = 2`, which reads as true. -/
theorem scan_force_only_advance_argument :
    advance_state ⟨5, 2⟩ = false
      ∧ tap_shifts (handle_jtag_request_scan true 0 ⟨5, 2⟩).2 = [Call.jtag_tap_shift 0 0 5 2]
      ∧ c_bool 2 = true := by
  decide

/-! ## Rejection -/

/-- C7: a request for 0 bits is rejected whatever `wIndex` holds: the handler
returns false and calls no collaborator at all. -/
theorem scan_zero_bits_rejected (xfer_result : Bool) (rhport : Nat)
    (request : tusb_control_request_t) (hzero : request.wValue = 0) :
    handle_jtag_request_scan xfer_result rhport request = (false, []) :=
  rejected_eq xfer_result rhport request (Or.inl hzero)

/-- C7 at `wValue = 0`, `wIndex = 3`. -/
theorem scan_zero_bits_rejected_witness :
    handle_jtag_request_scan true 0 ⟨0, 3⟩ = (false, []) :=
  scan_zero_bits_rejected true 0 ⟨0, 3⟩ rfl

/-- C8: a request whose `wValue / 8` exceeds `sizeof(jtag_out_buffer) = 256`,
which is exactly `wValue ≥ 2056`, is rejected whatever `wIndex` holds: the
handler returns false and calls no collaborator at all. -/
theorem scan_over_capacity_rejected (xfer_result : Bool) (rhport : Nat)
    (request : tusb_control_request_t)
    (hbig : sizeof_jtag_out_buffer < request.wValue / 8) :
    2056 ≤ request.wValue
      ∧ handle_jtag_request_scan xfer_result rhport request = (false, []) := by
  have h : 256 < request.wValue / 8 := hbig
  exact ⟨by omega, rejected_eq xfer_result rhport request (Or.inr h)⟩

/-- C8 at `wValue = 2056`, `wIndex = 2`. -/
theorem scan_over_capacity_rejected_witness :
    2056 ≤ 2056 ∧ handle_jtag_request_scan true 0 ⟨2056, 2⟩ = (false, []) :=
  scan_over_capacity_rejected true 0 ⟨2056, 2⟩ (by decide)

/-! ## Order of the calls -/

theorem trace_shape (xfer_result : Bool) (rhport : Nat) (request : tusb_control_request_t) :
    handle_jtag_request_scan xfer_result rhport request = (false, [])
      ∨ handle_jtag_request_scan xfer_result rhport request
          = (xfer_result, dispatch rhport request (final_split request)) := by
  by_cases hacc : 1 ≤ request.wValue ∧ request.wValue / 8 ≤ 256
  · exact Or.inr (accepted_eq xfer_result rhport request hacc.1 hacc.2)
  · exact Or.inl (rejected_eq xfer_result rhport request (by omega))

theorem bulk_stage_no_shift (s : Split) (c : Call) (hc : c ∈ bulk_stage s ++ [Call.spi_release_pinmux]) :
    c.is_jtag_tap_shift = false := by
  unfold bulk_stage at hc
  by_cases hb : s.bytes_to_send_bulk = 0
  · simp [hb] at hc
    subst hc
    rfl
  · simp [hb] at hc
    rcases hc with h | h | h <;> subst h <;> rfl

theorem bit_stage_no_send (rhport : Nat) (request : tusb_control_request_t) (s : Split)
    (c : Call) (hc : c ∈ bit_stage request s ++ [Call.tud_control_xfer rhport none 0]) :
    c.is_spi_send = false := by
  unfold bit_stage at hc
  by_cases hs : s.bits_to_send_slow = 0
  · simp [hs] at hc
    subst hc
    rfl
  · simp [hs] at hc
    rcases hc with h | h <;> subst h <;> rfl

theorem index_lt_of_append (pre post : List Call) (i j : Nat) (a b : Call)
    (hpre : ∀ c ∈ pre, c.is_jtag_tap_shift = false)
    (hpost : ∀ c ∈ post, c.is_spi_send = false)
    (hi : (pre ++ post)[i]? = some a) (hj : (pre ++ post)[j]? = some b)
    (ha : a.is_spi_send = true) (hb : b.is_jtag_tap_shift = true) : i < j := by
  have hilt : i < pre.length := by
    by_contra hge
    rw [List.getElem?_append_right (Nat.le_of_not_lt hge)] at hi
    have := hpost a (List.getElem?_mem hi)
    simp [ha] at this
  have hjge : pre.length ≤ j := by
    by_contra hlt
    rw [List.getElem?_append_left (Nat.lt_of_not_le hlt)] at hj
    have := hpre b (List.getElem?_mem hj)
    simp [hb] at this
  omega

theorem dispatch_send_before_shift (rhport : Nat) (request : tusb_control_request_t)
    (s : Split) (i j : Nat) (a b : Call)
    (hi : (dispatch rhport request s)[i]? = some a)
    (hj : (dispatch rhport request s)[j]? = some b)
    (ha : a.is_spi_send = true) (hb : b.is_jtag_tap_shift = true) : i < j := by
  have hd : dispatch rhport request s
      = (bulk_stage s ++ [Call.spi_release_pinmux])
        ++ (bit_stage request s ++ [Call.tud_control_xfer rhport none 0]) := by
    simp [dispatch]
  rw [hd] at hi hj
  exact index_lt_of_append _ _ i j a b (bulk_stage_no_shift s)
    (bit_stage_no_send rhport request s) hi hj ha hb

/-- C9: in one call of the handler `spi_send` is called at most once,
`jtag_tap_shift` is called at most once, and every `spi_send` call stands at a
strictly smaller position of the call trace than every `jtag_tap_shift` call. -/
theorem scan_stages_once_in_order (xfer_result : Bool) (rhport : Nat)
    (request : tusb_control_request_t) :
    (spi_sends (handle_jtag_request_scan xfer_result rhport request).2).length ≤ 1
      ∧ (tap_shifts (handle_jtag_request_scan xfer_result rhport request).2).length ≤ 1
      ∧ ∀ (i j : Nat) (a b : Call),
          (handle_jtag_request_scan xfer_result rhport request).2[i]? = some a →
          (handle_jtag_request_scan xfer_result rhport request).2[j]? = some b →
          a.is_spi_send = true → b.is_jtag_tap_shift = true → i < j := by
  rcases trace_shape xfer_result rhport request with h | h
  · rw [h]
    refine ⟨by simp [spi_sends], by simp [tap_shifts], ?_⟩
    intro i j a b hi
    simp at hi
  · rw [h]
    refine ⟨?_, ?_, ?_⟩
    · show (spi_sends (dispatch rhport request (final_split request))).length ≤ 1
      rw [spi_sends_dispatch]
      split <;> simp
    · show (tap_shifts (dispatch rhport request (final_split request))).length ≤ 1
      rw [tap_shifts_dispatch]
      unfold bit_stage
      split <;> simp
    · intro i j a b hi hj ha hb
      exact dispatch_send_before_shift rhport request _ i j a b hi hj ha hb

/-- C9 at `wValue = 16`, `wIndex = 1`: one `spi_send` at position 1 of the trace,
one `jtag_tap_shift` at position 3. -/
theorem scan_stages_once_in_order_witness :
    (spi_sends (handle_jtag_request_scan true 0 ⟨16, 1⟩).2).length ≤ 1
      ∧ (tap_shifts (handle_jtag_request_scan true 0 ⟨16, 1⟩).2).length ≤ 1
      ∧ (handle_jtag_request_scan true 0 ⟨16, 1⟩).2[1]? = some (Call.spi_send 0 0 1)
      ∧ (handle_jtag_request_scan true 0 ⟨16, 1⟩).2[3]? = some (Call.jtag_tap_shift 1 1 8 1)
      ∧ 1 < 3 :=
  have h := scan_stages_once_in_order true 0 ⟨16, 1⟩
  ⟨h.1, h.2.1, by decide, by decide,
    h.2.2 1 3 (Call.spi_send 0 0 1) (Call.jtag_tap_shift 1 1 8 1)
      (by decide) (by decide) rfl rfl⟩

/-- C10: for an accepted request the trace is the stage calls followed by one
`tud_control_xfer(rhport, request, NULL, 0)`, which is the only acknowledgement
and comes after every `spi_send` and `jtag_tap_shift`, and the handler returns
that call's result; for a rejected request there is no acknowledgement and the
handler returns false. -/
theorem scan_acknowledged_last (xfer_result : Bool) (rhport : Nat)
    (request : tusb_control_request_t) :
    (1 ≤ request.wValue → request.wValue / 8 ≤ 256 →
        (∃ stages : List Call,
          (handle_jtag_request_scan xfer_result rhport request).2
              = stages ++ [Call.tud_control_xfer rhport none 0]
            ∧ acknowledgements stages = []
            ∧ spi_sends stages
                = spi_sends (handle_jtag_request_scan xfer_result rhport request).2
            ∧ tap_shifts stages
                = tap_shifts (handle_jtag_request_scan xfer_result rhport request).2)
          ∧ acknowledgements (handle_jtag_request_scan xfer_result rhport request).2
              = [Call.tud_control_xfer rhport none 0]
          ∧ (handle_jtag_request_scan xfer_result rhport request).1 = xfer_result)
      ∧ (request.wValue = 0 ∨ 256 < request.wValue / 8 →
          acknowledgements (handle_jtag_request_scan xfer_result rhport request).2 = []
            ∧ (handle_jtag_request_scan xfer_result rhport request).1 = false) := by
  constructor
  · intro hpos hcap
    rw [accepted_eq xfer_result rhport request hpos hcap]
    have hstages : acknowledgements
        (bulk_stage (final_split request) ++ [Call.spi_release_pinmux]
          ++ bit_stage request (final_split request)) = [] := by
      unfold acknowledgements bulk_stage bit_stage
      by_cases hb : (final_split request).bytes_to_send_bulk = 0 <;>
        by_cases hs : (final_split request).bits_to_send_slow = 0 <;>
        simp [hb, hs, List.filter, Call.is_tud_control_xfer]
    refine ⟨⟨bulk_stage (final_split request) ++ [Call.spi_release_pinmux]
        ++ bit_stage request (final_split request), rfl, hstages, ?_, ?_⟩, ?_, rfl⟩
    · simp [dispatch, spi_sends, Call.is_spi_send]
    · simp [dispatch, tap_shifts, Call.is_jtag_tap_shift]
    · have hsplit : acknowledgements (dispatch rhport request (final_split request))
          = acknowledgements (bulk_stage (final_split request) ++ [Call.spi_release_pinmux]
              ++ bit_stage request (final_split request))
            ++ [Call.tud_control_xfer rhport none 0] := by
        simp [dispatch, acknowledgements, Call.is_tud_control_xfer]
      show acknowledgements (dispatch rhport request (final_split request)) = _
      rw [hsplit, hstages]
      rfl
  · intro hrej
    rw [rejected_eq xfer_result rhport request hrej]
    exact ⟨rfl, rfl⟩

/-- C10 at `wValue = 16`, `wIndex = 1`, with the transport reporting failure:
one acknowledgement, and the handler returns the transport's `false`. -/
theorem scan_acknowledged_last_witness :
    acknowledgements (handle_jtag_request_scan false 0 ⟨16, 1⟩).2
        = [Call.tud_control_xfer 0 none 0]
      ∧ (handle_jtag_request_scan false 0 ⟨16, 1⟩).1 = false :=
  ((scan_acknowledged_last false 0 ⟨16, 1⟩).1 (by decide) (by decide)).2

/-! ## The decrement of the state-advance correction -/

/-- C11: whenever the handler reaches the state-advance correction (neither
check rejected the request) and the correction fires on the locals left by the
force override, `bytes_to_send_bulk` is at least 1 just before the decrement, and
the `size_t` decrement yields exactly one less: it never wraps around. -/
theorem scan_correction_never_wraps (request : tusb_control_request_t)
    (hzero : zero_length (initial_split request) = false)
    (hcap : exceeds_buffer (initial_split request) = false)
    (hfire : correction_fires request (force_override request (initial_split request)) = true) :
    1 ≤ (force_override request (initial_split request)).bytes_to_send_bulk
      ∧ (final_split request).bytes_to_send_bulk + 1
          = (force_override request (initial_split request)).bytes_to_send_bulk
      ∧ (final_split request).bytes_to_send_bulk < sizeof_jtag_out_buffer := by
  have hle : request.wValue / 8 ≤ 256 := by
    simpa [exceeds_buffer, initial_split, sizeof_jtag_out_buffer] using hcap
  have hnz : request.wValue % 8 = 0 → ¬ request.wValue / 8 = 0 := by
    simpa [zero_length, initial_split] using hzero
  cases hforce : force_bitbang request
  · have hrem : request.wValue % 8 = 0 := by
      have h := hfire
      simp [correction_fires, force_override, initial_split, hforce] at h
      exact h.1
    have hpos : 1 ≤ request.wValue / 8 := by
      have := hnz hrem
      omega
    have hdec := size_t_decrement (request.wValue / 8) hpos hle
    simp only [final_split, advance_correction, hfire, if_true]
    simp only [force_override, hforce, initial_split, Bool.false_eq_true, if_false, hdec,
      sizeof_jtag_out_buffer]
    omega
  · have hw : request.wValue = 0 := by
      have h := hfire
      simp [correction_fires, force_override, hforce] at h
      exact h.1
    have := hnz (by omega)
    omega

/-- C11 at `wValue = 8`, `wIndex = 1`: one byte before the decrement, none after. -/
theorem scan_correction_never_wraps_witness :
    1 ≤ (force_override ⟨8, 1⟩ (initial_split ⟨8, 1⟩)).bytes_to_send_bulk
      ∧ (final_split ⟨8, 1⟩).bytes_to_send_bulk + 1 = 1
      ∧ (final_split ⟨8, 1⟩).bytes_to_send_bulk < 256 :=
  scan_correction_never_wraps ⟨8, 1⟩ (by decide) (by decide) (by decide)

/-! ## Buffer bounds -/

/-- C12 (the code at two failing inputs): `wValue = 2049` passes both checks
(`2049 / 8 = 256` is not greater than 256), `spi_send` is given all 256 bytes and
`jtag_tap_shift` starts at offset 256, one past the end of the buffers; and with
`FLAG_FORCE_BITBANG` set, `wValue = 2055` is shifted from offset 0 as 2055 bits,
which is 257 bytes. -/
theorem scan_accepts_past_buffer_end :
    handle_jtag_request_scan true 0 ⟨2049, 0⟩
        = (true, [Call.spi_configure_pinmux, Call.spi_send 0 0 256, Call.spi_release_pinmux,
            Call.jtag_tap_shift 256 256 1 0, Call.tud_control_xfer 0 none 0])
      ∧ sizeof_jtag_out_buffer < (Call.jtag_tap_shift 256 256 1 0).buffer_end
      ∧ handle_jtag_request_scan true 0 ⟨2055, 2⟩
          = (true, [Call.spi_release_pinmux, Call.jtag_tap_shift 0 0 2055 2,
              Call.tud_control_xfer 0 none 0])
      ∧ sizeof_jtag_out_buffer < (Call.jtag_tap_shift 0 0 2055 2).buffer_end := by
  decide

/-! ## The two stages partition the scan -/

theorem bytes_sent_bulk_dispatch (rhport : Nat) (request : tusb_control_request_t)
    (s : Split) : bytes_sent_bulk (dispatch rhport request s) = s.bytes_to_send_bulk := by
  unfold bytes_sent_bulk dispatch bulk_stage bit_stage
  by_cases hb : s.bytes_to_send_bulk = 0 <;> by_cases hs : s.bits_to_send_slow = 0 <;>
    simp [hb, hs, Call.bulk_bytes]

theorem bits_sent_slow_dispatch (rhport : Nat) (request : tusb_control_request_t)
    (s : Split) : bits_sent_slow (dispatch rhport request s) = s.bits_to_send_slow := by
  unfold bits_sent_slow dispatch bulk_stage bit_stage
  by_cases hb : s.bytes_to_send_bulk = 0 <;> by_cases hs : s.bits_to_send_slow = 0 <;>
    simp [hb, hs, Call.slow_bits]

theorem final_split_total (request : tusb_control_request_t)
    (hpos : 1 ≤ request.wValue) (hcap : request.wValue / 8 ≤ 256) :
    8 * (final_split request).bytes_to_send_bulk + (final_split request).bits_to_send_slow
      = request.wValue := by
  cases hforce : force_bitbang request
  · by_cases hrem : request.wValue % 8 = 0
    · cases hadv : advance_state request
      · rw [final_split_aligned_hold request hforce hrem hadv]
        show 8 * (request.wValue / 8) + 0 = request.wValue
        omega
      · rw [final_split_aligned_advance request hforce hrem hadv hpos hcap]
        show 8 * (request.wValue / 8 - 1) + 8 = request.wValue
        omega
    · rw [final_split_unaligned request hforce hrem]
      show 8 * (request.wValue / 8) + request.wValue % 8 = request.wValue
      omega
  · rw [final_split_forced request hforce hpos]
    show 8 * 0 + request.wValue = request.wValue
    omega

theorem mem_dispatch_shift (rhport : Nat) (request : tusb_control_request_t) (s : Split)
    (o i b a : Nat) (hmem : Call.jtag_tap_shift o i b a ∈ dispatch rhport request s) :
    o = s.bytes_to_send_bulk ∧ i = s.bytes_to_send_bulk ∧ b = s.bits_to_send_slow
      ∧ a = request.wIndex ∧ s.bits_to_send_slow ≠ 0 := by
  unfold dispatch bulk_stage bit_stage at hmem
  by_cases hb : s.bytes_to_send_bulk = 0 <;> by_cases hs : s.bits_to_send_slow = 0 <;>
    simp [hb, hs] at hmem <;> simp [hmem, hs, hb]

theorem mem_dispatch_send (rhport : Nat) (request : tusb_control_request_t) (s : Split)
    (o i n : Nat) (hmem : Call.spi_send o i n ∈ dispatch rhport request s) :
    o = 0 ∧ i = 0 ∧ n = s.bytes_to_send_bulk ∧ s.bytes_to_send_bulk ≠ 0 := by
  unfold dispatch bulk_stage bit_stage at hmem
  by_cases hb : s.bytes_to_send_bulk = 0 <;> by_cases hs : s.bits_to_send_slow = 0 <;>
    simp [hb, hs] at hmem <;> simp [hmem, hb]

/-- C13: for an accepted request, whatever the flags, the bytes given to
`spi_send` (0 if it is not called) times 8 plus the bits given to
`jtag_tap_shift` (0 if it is not called) equal `wValue`; the bulk transfer starts
at byte 0 and the shift starts at the byte where the bulk transfer ends; and at
least one of the two stages is called. -/
theorem scan_stages_partition (xfer_result : Bool) (rhport : Nat)
    (request : tusb_control_request_t)
    (hpos : 1 ≤ request.wValue) (hcap : request.wValue / 8 ≤ 256) :
    8 * bytes_sent_bulk (handle_jtag_request_scan xfer_result rhport request).2
        + bits_sent_slow (handle_jtag_request_scan xfer_result rhport request).2
        = request.wValue
      ∧ (∀ o i n : Nat,
          Call.spi_send o i n ∈ (handle_jtag_request_scan xfer_result rhport request).2 →
            o = 0 ∧ i = 0)
      ∧ (∀ o i b a : Nat,
          Call.jtag_tap_shift o i b a
              ∈ (handle_jtag_request_scan xfer_result rhport request).2 →
            o = bytes_sent_bulk (handle_jtag_request_scan xfer_result rhport request).2
              ∧ i = bytes_sent_bulk (handle_jtag_request_scan xfer_result rhport request).2)
      ∧ (spi_sends (handle_jtag_request_scan xfer_result rhport request).2 ≠ []
          ∨ tap_shifts (handle_jtag_request_scan xfer_result rhport request).2 ≠ []) := by
  have htotal := final_split_total request hpos hcap
  rw [accepted_eq xfer_result rhport request hpos hcap]
  simp only [bytes_sent_bulk_dispatch, bits_sent_slow_dispatch, spi_sends_dispatch,
    tap_shifts_dispatch]
  refine ⟨htotal, ?_, ?_, ?_⟩
  · intro o i n hmem
    have h := mem_dispatch_send rhport request _ o i n hmem
    exact ⟨h.1, h.2.1⟩
  · intro o i b a hmem
    have h := mem_dispatch_shift rhport request _ o i b a hmem
    exact ⟨h.1, h.2.1⟩
  · by_cases hb : (final_split request).bytes_to_send_bulk = 0
    · right
      have hs : ¬ (final_split request).bits_to_send_slow = 0 := by
        intro hs
        rw [hb, hs] at htotal
        omega
      simp [bit_stage, hs]
    · left
      simp [hb]

/-- C13 at `wValue = 20`, `wIndex = 0`: 2 bytes in bulk and 4 bits shifted. -/
theorem scan_stages_partition_witness :
    8 * bytes_sent_bulk (handle_jtag_request_scan true 0 ⟨20, 0⟩).2
        + bits_sent_slow (handle_jtag_request_scan true 0 ⟨20, 0⟩).2 = 20
      ∧ bytes_sent_bulk (handle_jtag_request_scan true 0 ⟨20, 0⟩).2 = 2
      ∧ bits_sent_slow (handle_jtag_request_scan true 0 ⟨20, 0⟩).2 = 4 :=
  ⟨(scan_stages_partition true 0 ⟨20, 0⟩ (by decide) (by decide)).1, by decide, by decide⟩

/-! ## The bit count handed to the shift primitive -/

theorem final_split_slow_le (request : tusb_control_request_t)
    (hforce : force_bitbang request = false) :
    (final_split request).bits_to_send_slow ≤ 8 := by
  unfold final_split advance_correction
  split
  · exact Nat.le_refl 8
  · simp only [force_override, hforce, Bool.false_eq_true, if_false, initial_split]
    omega

/-- C14 as stated fails at `wValue = 9`, `wIndex = 2`: the forced request is
accepted and `jtag_tap_shift` is handed 9 bits, more than 8. -/
theorem scan_forced_shift_bit_count_counterexample :
    force_bitbang ⟨9, 2⟩ = true
      ∧ tap_shifts (handle_jtag_request_scan true 0 ⟨9, 2⟩).2 = [Call.jtag_tap_shift 0 0 9 2]
      ∧ ¬ (1 ≤ 9 ∧ 9 ≤ 8) := by
  decide

/-- C14 (amended): whenever the handler calls `jtag_tap_shift`, the bit count is
at least 1; without `FLAG_FORCE_BITBANG` it is at most 8, and with
`FLAG_FORCE_BITBANG` it is the whole `wValue`, which is at most 2055. -/
theorem scan_shift_bit_count (xfer_result : Bool) (rhport : Nat)
    (request : tusb_control_request_t) (o i b a : Nat)
    (hmem : Call.jtag_tap_shift o i b a
      ∈ (handle_jtag_request_scan xfer_result rhport request).2) :
    1 ≤ b
      ∧ (force_bitbang request = false → b ≤ 8)
      ∧ (force_bitbang request = true → b = request.wValue ∧ b ≤ 2055) := by
  by_cases hacc : 1 ≤ request.wValue ∧ request.wValue / 8 ≤ 256
  · rw [accepted_eq xfer_result rhport request hacc.1 hacc.2] at hmem
    have h := mem_dispatch_shift rhport request _ o i b a hmem
    have hb : b = (final_split request).bits_to_send_slow := h.2.2.1
    have hne : (final_split request).bits_to_send_slow ≠ 0 := h.2.2.2.2
    refine ⟨by omega, ?_, ?_⟩
    · intro hforce
      have := final_split_slow_le request hforce
      omega
    · intro hforce
      rw [final_split_forced request hforce hacc.1] at hb
      have hb2 : b = request.wValue := hb
      have := hacc.2
      exact ⟨hb2, by omega⟩
  · rw [rejected_eq xfer_result rhport request (by omega)] at hmem
    simp at hmem

/-- C14 (amended) at `wValue = 20`, `wIndex = 0`: the shift gets 4 bits. -/
theorem scan_shift_bit_count_witness :
    Call.jtag_tap_shift 2 2 4 0 ∈ (handle_jtag_request_scan true 0 ⟨20, 0⟩).2
      ∧ 1 ≤ 4 ∧ 4 ≤ 8 :=
  have h := scan_shift_bit_count true 0 ⟨20, 0⟩ 2 2 4 0 (by decide)
  ⟨by decide, h.1, h.2.1 (by decide)⟩

/-! ## Pin-mode switches around the Bulk stage -/

theorem dispatch_shape (rhport : Nat) (request : tusb_control_request_t) (s : Split) :
    dispatch rhport request s
        = [Call.spi_release_pinmux, Call.tud_control_xfer rhport none 0]
      ∨ dispatch rhport request s
        = [Call.spi_release_pinmux,
            Call.jtag_tap_shift s.bytes_to_send_bulk s.bytes_to_send_bulk
              s.bits_to_send_slow request.wIndex,
            Call.tud_control_xfer rhport none 0]
      ∨ dispatch rhport request s
        = [Call.spi_configure_pinmux, Call.spi_send 0 0 s.bytes_to_send_bulk,
            Call.spi_release_pinmux, Call.tud_control_xfer rhport none 0]
      ∨ dispatch rhport request s
        = [Call.spi_configure_pinmux, Call.spi_send 0 0 s.bytes_to_send_bulk,
            Call.spi_release_pinmux,
            Call.jtag_tap_shift s.bytes_to_send_bulk s.bytes_to_send_bulk
              s.bits_to_send_slow request.wIndex,
            Call.tud_control_xfer rhport none 0] := by
  unfold dispatch bulk_stage bit_stage
  by_cases hb : s.bytes_to_send_bulk = 0 <;> by_cases hs : s.bits_to_send_slow = 0 <;>
    simp [hb, hs]

theorem dispatch_configure_then_send (rhport : Nat) (request : tusb_control_request_t)
    (s : Split) (k : Nat)
    (hk : (dispatch rhport request s)[k]? = some Call.spi_configure_pinmux) :
    (dispatch rhport request s)[k + 1]? = some (Call.spi_send 0 0 s.bytes_to_send_bulk) := by
  rcases dispatch_shape rhport request s with h | h | h | h <;> rw [h] at hk ⊢ <;>
    rcases k with _ | _ | _ | _ | _ | k <;> simp at hk ⊢

theorem dispatch_send_bracketed (rhport : Nat) (request : tusb_control_request_t)
    (s : Split) (k : Nat) (c : Call)
    (hk : (dispatch rhport request s)[k]? = some c) (hc : c.is_spi_send = true) :
    (∃ k0, k = k0 + 1 ∧ (dispatch rhport request s)[k0]? = some Call.spi_configure_pinmux)
      ∧ (dispatch rhport request s)[k + 1]? = some Call.spi_release_pinmux := by
  rcases dispatch_shape rhport request s with h | h | h | h <;> rw [h] at hk ⊢ <;>
    rcases k with _ | _ | _ | _ | _ | k <;> simp at hk ⊢ <;> subst hk <;>
    simp [Call.is_spi_send] at hc

theorem dispatch_release_once (rhport : Nat) (request : tusb_control_request_t)
    (s : Split) : (dispatch rhport request s).count Call.spi_release_pinmux = 1 := by
  rcases dispatch_shape rhport request s with h | h | h | h <;> rw [h] <;>
    simp [List.count_cons]

theorem dispatch_shift_after_release (rhport : Nat) (request : tusb_control_request_t)
    (s : Split) (k : Nat) (c : Call)
    (hk : (dispatch rhport request s)[k]? = some c) (hc : c.is_jtag_tap_shift = true) :
    last_pin_mode ((dispatch rhport request s).take k) = some Call.spi_release_pinmux := by
  rcases dispatch_shape rhport request s with h | h | h | h <;> rw [h] at hk ⊢ <;>
    rcases k with _ | _ | _ | _ | _ | k <;> simp at hk <;> subst hk <;>
    simp [Call.is_jtag_tap_shift] at hc <;>
    simp [last_pin_mode, List.filter, Call.is_pin_mode]

/-- C15: in the trace of an accepted request, every `spi_configure_pinmux` is
immediately followed by an `spi_send`, every `spi_send` has
`spi_configure_pinmux` immediately before it and `spi_release_pinmux` immediately
after it, `spi_release_pinmux` is called exactly once, and the most recent
pin-mode call before every `jtag_tap_shift` is `spi_release_pinmux`, whether or
not the Bulk stage ran. -/
theorem scan_pin_mode_brackets_bulk (xfer_result : Bool) (rhport : Nat)
    (request : tusb_control_request_t)
    (hpos : 1 ≤ request.wValue) (hcap : request.wValue / 8 ≤ 256) :
    (∀ k : Nat,
        (handle_jtag_request_scan xfer_result rhport request).2[k]?
            = some Call.spi_configure_pinmux →
          ∃ n, (handle_jtag_request_scan xfer_result rhport request).2[k + 1]?
            = some (Call.spi_send 0 0 n))
      ∧ (∀ (k : Nat) (c : Call),
          (handle_jtag_request_scan xfer_result rhport request).2[k]? = some c →
          c.is_spi_send = true →
            (∃ k0, k = k0 + 1
              ∧ (handle_jtag_request_scan xfer_result rhport request).2[k0]?
                  = some Call.spi_configure_pinmux)
            ∧ (handle_jtag_request_scan xfer_result rhport request).2[k + 1]?
                = some Call.spi_release_pinmux)
      ∧ (handle_jtag_request_scan xfer_result rhport request).2.count
          Call.spi_release_pinmux = 1
      ∧ (∀ (k : Nat) (c : Call),
          (handle_jtag_request_scan xfer_result rhport request).2[k]? = some c →
          c.is_jtag_tap_shift = true →
            last_pin_mode ((handle_jtag_request_scan xfer_result rhport request).2.take k)
              = some Call.spi_release_pinmux) := by
  rw [accepted_eq xfer_result rhport request hpos hcap]
  refine ⟨?_, ?_, ?_, ?_⟩
  · intro k hk
    exact ⟨_, dispatch_configure_then_send rhport request _ k hk⟩
  · intro k c hk hc
    exact dispatch_send_bracketed rhport request _ k c hk hc
  · exact dispatch_release_once rhport request _
  · intro k c hk hc
    exact dispatch_shift_after_release rhport request _ k c hk hc

/-- C15 at `wValue = 16`, `wIndex = 1`: the `spi_send` at position 1 has
`spi_release_pinmux` right after it, there is one release in all, and the shift
at position 3 runs with the pins released. -/
theorem scan_pin_mode_brackets_bulk_witness :
    (handle_jtag_request_scan true 0 ⟨16, 1⟩).2[1 + 1]? = some Call.spi_release_pinmux
      ∧ (handle_jtag_request_scan true 0 ⟨16, 1⟩).2.count Call.spi_release_pinmux = 1
      ∧ last_pin_mode ((handle_jtag_request_scan true 0 ⟨16, 1⟩).2.take 3)
          = some Call.spi_release_pinmux :=
  have h := scan_pin_mode_brackets_bulk true 0 ⟨16, 1⟩ (by decide) (by decide)
  ⟨(h.2.1 1 (Call.spi_send 0 0 1) (by decide) rfl).2, h.2.2.1,
    h.2.2.2 3 (Call.jtag_tap_shift 1 1 8 1) (by decide) rfl⟩

end Apollo
